import Mathlib

/-!
Verification development for the FakeNotify daemon and protocol crates.

This file gives a shallow embedding of the Rust sources:
  * `crates/protocol/src/event.rs`   — inotify record codec and mask constants
  * `crates/protocol/src/message.rs` — request/response messages
  * `crates/daemon/src/state.rs`     — the shared watch/client registry
  * `crates/daemon/src/watcher.rs`   — event classification and dispatch
  * `crates/daemon/src/server.rs`    — the request handler
  * `crates/preload/src/lib.rs`      — the interposition library's response mapping

Modelling conventions:
  * `HashMap` becomes an association list with `alookup` / `ainsert` / `aerase`
    (each key occurs at most once; iteration order is never observed by the
    modelled operations).
  * Machine integers become `Nat` / `Int`; wrapping is modelled explicitly
    (`% 2^32`) exactly where the source can wrap and the behaviour matters.
  * Filesystem paths become lists of components, each component a list of
    bytes; `PathBuf::parent` is `dropLast`, `Path::strip_prefix` is
    component-wise prefix removal, and `Path::to_str().as_bytes()` joins
    components with the byte 0x2F.
  * Byte vectors become `List Nat` with every element < 256; `to_ne_bytes`
    is little-endian, matching the x86-64 hosts the daemon targets.
-/

/-- Association-list lookup, modelling `HashMap::get`. -/
def alookup {K V : Type} [DecidableEq K] : List (K × V) → K → Option V
  | [], _ => none
  | (k', v) :: t, k => if k' = k then some v else alookup t k

/-- Association-list erase, modelling `HashMap::remove`. -/
def aerase {K V : Type} [DecidableEq K] (l : List (K × V)) (k : K) : List (K × V) :=
  l.filter (fun e => decide (e.1 ≠ k))

/-- Association-list insert/replace, modelling `HashMap::insert`. -/
def ainsert {K V : Type} [DecidableEq K] (l : List (K × V)) (k : K) (v : V) : List (K × V) :=
  (k, v) :: aerase l k

/-! ## Event masks (`crates/protocol/src/event.rs`, `bitflags!` block) -/

def IN_ACCESS : Nat := 0x00000001
def IN_MODIFY : Nat := 0x00000002
def IN_ATTRIB : Nat := 0x00000004
def IN_CLOSE_WRITE : Nat := 0x00000008
def IN_CLOSE_NOWRITE : Nat := 0x00000010
def IN_OPEN : Nat := 0x00000020
def IN_MOVED_FROM : Nat := 0x00000040
def IN_MOVED_TO : Nat := 0x00000080
def IN_CREATE : Nat := 0x00000100
def IN_DELETE : Nat := 0x00000200
def IN_DELETE_SELF : Nat := 0x00000400
def IN_MOVE_SELF : Nat := 0x00000800
def IN_CLOSE : Nat := IN_CLOSE_WRITE ||| IN_CLOSE_NOWRITE
def IN_MOVE : Nat := IN_MOVED_FROM ||| IN_MOVED_TO
def IN_ALL_EVENTS : Nat :=
  IN_ACCESS ||| IN_MODIFY ||| IN_ATTRIB ||| IN_CLOSE_WRITE ||| IN_CLOSE_NOWRITE |||
  IN_OPEN ||| IN_MOVED_FROM ||| IN_MOVED_TO ||| IN_CREATE ||| IN_DELETE |||
  IN_DELETE_SELF ||| IN_MOVE_SELF
def IN_ONLYDIR : Nat := 0x01000000
def IN_DONT_FOLLOW : Nat := 0x02000000
def IN_MASK_ADD : Nat := 0x20000000
def IN_ONESHOT : Nat := 0x80000000
def IN_IGNORED : Nat := 0x00008000
def IN_ISDIR : Nat := 0x40000000
def IN_Q_OVERFLOW : Nat := 0x00004000
def IN_UNMOUNT : Nat := 0x00002000

/-- Union of every flag declared in the `bitflags!` block; `from_bits_truncate`
keeps exactly these bits. -/
def EventMask_all_defined : Nat :=
  IN_ACCESS ||| IN_MODIFY ||| IN_ATTRIB ||| IN_CLOSE_WRITE ||| IN_CLOSE_NOWRITE |||
  IN_OPEN ||| IN_MOVED_FROM ||| IN_MOVED_TO ||| IN_CREATE ||| IN_DELETE |||
  IN_DELETE_SELF ||| IN_MOVE_SELF ||| IN_ONLYDIR ||| IN_DONT_FOLLOW |||
  IN_MASK_ADD ||| IN_ONESHOT ||| IN_IGNORED ||| IN_ISDIR ||| IN_Q_OVERFLOW ||| IN_UNMOUNT

/-- `EventMask::from_bits_truncate` (bitflags): drop unknown bits. -/
def from_bits_truncate (m : Nat) : Nat := m &&& EventMask_all_defined

/-! ## Inotify record codec (`crates/protocol/src/event.rs`) -/

/-- Little-endian bytes of a `u32` (`to_ne_bytes` on the little-endian hosts
this system targets). Inputs are taken mod 2^32 by construction of the bytes. -/
def u32ToLE (x : Nat) : List Nat :=
  [x % 256, x / 256 % 256, x / 65536 % 256, x / 16777216 % 256]

/-- Little-endian bytes of an `i32` (two's complement). -/
def i32ToLE (x : Int) : List Nat := u32ToLE (x % (2 ^ 32)).toNat

/-- Read back a `u32` from four little-endian bytes. -/
def u32OfLE (bs : List Nat) : Nat :=
  match bs with
  | [a, b, c, d] => a + 256 * b + 65536 * c + 16777216 * d
  | _ => 0

/-- `InotifyEvent::HEADER_SIZE` (16 bytes: wd, mask, cookie, len). -/
def HEADER_SIZE : Nat := 16

/-- `InotifyEvent::header_to_bytes`: the four fields in native (little-endian)
byte order. -/
def header_to_bytes (wd : Int) (mask cookie len : Nat) : List Nat :=
  i32ToLE wd ++ u32ToLE mask ++ u32ToLE cookie ++ u32ToLE len

/-- The padded name length computed inside `to_bytes_with_name`:
`(name.len() + 1 + 3) & !3` in `usize` arithmetic (`!3 = 2^64 - 4`). -/
def padded_name_len (name_len : Nat) : Nat := (name_len + 1 + 3) &&& (2 ^ 64 - 4)

/-- `InotifyEvent::to_bytes_with_name`: header with `len = padded_len as u32`,
then the name bytes, then `resize` to `HEADER_SIZE + padded_len` with zeros
(the NUL terminator and padding; `padded_len ≥ name.len() + 1`, so `resize`
only appends). -/
def to_bytes_with_name (wd : Int) (mask cookie : Nat) (name : List Nat) : List Nat :=
  let padded_len := padded_name_len name.length
  header_to_bytes wd mask cookie (padded_len % 2 ^ 32) ++ name ++
    List.replicate ((HEADER_SIZE + padded_len) - (HEADER_SIZE + name.length)) 0

/-- `event_size_with_name`: total record size for a name of `name_len` bytes. -/
def event_size_with_name (name_len : Nat) : Nat :=
  HEADER_SIZE + padded_name_len name_len

/-- The `len` header field of an encoded record. -/
def lenField (bs : List Nat) : Nat := u32OfLE ((bs.drop 12).take 4)

/-- The `cookie` header field of an encoded record. -/
def cookieField (bs : List Nat) : Nat := u32OfLE ((bs.drop 8).take 4)

/-! ## Registry data model (`crates/daemon/src/state.rs`) -/

/-- An absolute filesystem path: components below the root, each a byte list. -/
abbrev PathB := List (List Nat)

/-- `WatchInfo`: one watch of the registry. `ClientId` is `u64` (here `Nat`);
a watch descriptor is `i32` (here `Int`), monotonically allocated from 1. -/
structure WatchInfo where
  wd : Int
  path : PathB
  mask : Nat
  recursive : Bool
  clients : List Nat
deriving DecidableEq, Repr

/-- `DaemonState`: the shared registry. A client is represented by its
`watches` list (the socket writer and `connected_at` carry no registry
state). `started_at` is likewise omitted. -/
structure DaemonState where
  clients : List (Nat × List Int)
  watches : List (Int × WatchInfo)
  path_to_wd : List (PathB × Int)
  next_client_id : Nat
  next_wd : Int
deriving DecidableEq, Repr

/-- `DaemonState::new`. -/
def DaemonState.new : DaemonState :=
  { clients := [], watches := [], path_to_wd := [], next_client_id := 1, next_wd := 1 }

/-- `DaemonState::register_client`: allocate the next id, insert a client with
an empty watch list, return the id. -/
def register_client (s : DaemonState) : Nat × DaemonState :=
  let id := s.next_client_id
  (id, { s with clients := ainsert s.clients id [], next_client_id := id + 1 })

/-- The loop body of `DaemonState::unregister_client`: for each wd in the
client's list, drop the client from that watch (`Vec::retain`), and remove the
watch and its `path_to_wd` entry when its subscriber list becomes empty. -/
def remove_client_watches (c : Nat) :
    List Int → List (Int × WatchInfo) → List (PathB × Int) →
    List (Int × WatchInfo) × List (PathB × Int)
  | [], ws, pw => (ws, pw)
  | wd :: rest, ws, pw =>
    match alookup ws wd with
    | none => remove_client_watches c rest ws pw
    | some w =>
      let cl := w.clients.filter (fun x => decide (x ≠ c))
      if cl = [] then remove_client_watches c rest (aerase ws wd) (aerase pw w.path)
      else remove_client_watches c rest (ainsert ws wd { w with clients := cl }) pw

/-- `DaemonState::unregister_client`. -/
def unregister_client (s : DaemonState) (c : Nat) : DaemonState :=
  match alookup s.clients c with
  | none => s
  | some lws =>
    let (ws, pw) := remove_client_watches c lws s.watches s.path_to_wd
    { s with watches := ws, path_to_wd := pw, clients := aerase s.clients c }

/-- `DaemonState::add_watch`. The existing-watch branch fires only when the
`path_to_wd` entry exists AND the watch it names is present (the nested
`if let` chain in the source); otherwise a fresh watch is created. The wd is
pushed onto the client's list only when the client is registered. -/
def add_watch (s : DaemonState) (c : Nat) (p : PathB) (m : Nat) (r : Bool) :
    Int × DaemonState :=
  let existing : Option (Int × WatchInfo) :=
    match alookup s.path_to_wd p with
    | some wd =>
      match alookup s.watches wd with
      | some w => some (wd, w)
      | none => none
    | none => none
  match existing with
  | some (wd, w) =>
    let w' := { w with
      clients := if c ∈ w.clients then w.clients else w.clients ++ [c],
      mask := w.mask ||| m }
    let clients' :=
      match alookup s.clients c with
      | some lw => ainsert s.clients c (lw ++ [wd])
      | none => s.clients
    (wd, { s with watches := ainsert s.watches wd w', clients := clients' })
  | none =>
    let wd := s.next_wd
    let w : WatchInfo := { wd := wd, path := p, mask := m, recursive := r, clients := [c] }
    let clients' :=
      match alookup s.clients c with
      | some lw => ainsert s.clients c (lw ++ [wd])
      | none => s.clients
    (wd, { s with watches := ainsert s.watches wd w,
                  path_to_wd := ainsert s.path_to_wd p wd,
                  clients := clients', next_wd := wd + 1 })

/-- `DaemonState::remove_watch`. Returns whether the watch existed. -/
def remove_watch (s : DaemonState) (c : Nat) (wd : Int) :
    Bool × DaemonState :=
  match alookup s.watches wd with
  | none => (false, s)
  | some w =>
    let cl := w.clients.filter (fun x => decide (x ≠ c))
    let clients' :=
      match alookup s.clients c with
      | some lw => ainsert s.clients c (lw.filter (fun x => decide (x ≠ wd)))
      | none => s.clients
    if cl = [] then
      (true, { s with watches := aerase s.watches wd,
                      path_to_wd := aerase s.path_to_wd w.path, clients := clients' })
    else
      (true, { s with watches := ainsert s.watches wd { w with clients := cl },
                      clients := clients' })

/-- The parent-walking loop of `DaemonState::find_watch_for_path`, modelled
with structural recursion on an exact fuel (`fuel = p.length` steps remain:
each iteration moves `current` to its parent, i.e. drops the last component;
the root `[]` has no parent). Returns the first (deepest) ancestor carrying a
recursive watch, skipping ancestors with no watch or a non-recursive one. -/
def find_rec_ancestor_go (s : DaemonState) : Nat → PathB → Option WatchInfo
  | 0, _ => none
  | _ + 1, [] => none
  | n + 1, a :: t =>
    let par := (a :: t).dropLast
    match alookup s.path_to_wd par with
    | some wd =>
      match alookup s.watches wd with
      | some w => if w.recursive then some w else find_rec_ancestor_go s n par
      | none => find_rec_ancestor_go s n par
    | none => find_rec_ancestor_go s n par

/-- `DaemonState::find_watch_for_path`: exact match first (returning whatever
`watches.get` yields for the indexed wd), else walk parents upward. -/
def find_watch_for_path (s : DaemonState) (p : PathB) : Option WatchInfo :=
  match alookup s.path_to_wd p with
  | some wd => alookup s.watches wd
  | none => find_rec_ancestor_go s p.length p

/-! ## Registry operation sequences -/

/-- One registry mutation, as invoked by the daemon. -/
inductive RegOp where
  | register : RegOp
  | addWatch (c : Nat) (p : PathB) (m : Nat) (r : Bool) : RegOp
  | removeWatch (c : Nat) (wd : Int) : RegOp
  | unregister (c : Nat) : RegOp
deriving DecidableEq, Repr

/-- Apply one operation to the registry. -/
def applyOp (s : DaemonState) : RegOp → DaemonState
  | .register => (register_client s).2
  | .addWatch c p m r => (add_watch s c p m r).2
  | .removeWatch c wd => (remove_watch s c wd).2
  | .unregister c => unregister_client s c

/-- Whether an operation can be issued in state `s`. The daemon's server only
calls `add_watch` / `remove_watch` with the id of a currently registered
client (the per-connection handler registers on accept, handles that client's
requests, and unregisters on disconnect before the task exits). -/
def validOp (s : DaemonState) : RegOp → Bool
  | .register => true
  | .addWatch c _ _ _ => (alookup s.clients c).isSome
  | .removeWatch c _ => (alookup s.clients c).isSome
  | .unregister _ => true

/-- A sequence of operations each valid in the state it meets. -/
def validSeq : DaemonState → List RegOp → Bool
  | _, [] => true
  | s, op :: ops => validOp s op && validSeq (applyOp s op) ops

/-- Run a sequence of operations. -/
def runOps (s : DaemonState) (ops : List RegOp) : DaemonState :=
  ops.foldl applyOp s

/-! ## Specification-side lookup (`spec.md` §4.3, for the refinement claim) -/

/-- Modelled from the spec's words: the proper ancestors of `p`, nearest
(deepest) first, ending at the root: `take (len-1), …, take 0`. -/
def nearestAncestors (p : PathB) : List PathB :=
  (List.range p.length).reverse.map (fun k => p.take k)

/-- Modelled from the spec's words: the watch at `q` when it is recursive. -/
def recursiveWatchAt (s : DaemonState) (q : PathB) : Option WatchInfo :=
  match alookup s.path_to_wd q with
  | some wd =>
    match alookup s.watches wd with
    | some w => if w.recursive then some w else none
    | none => none
  | none => none

/-- Modelled from the spec's words (§4.3): exact-match lookup in `path_index`
first; else the nearest ancestor whose watch has `recursive = true`; else
`None`. -/
def find_watch_spec (s : DaemonState) (p : PathB) : Option WatchInfo :=
  match alookup s.path_to_wd p with
  | some wd => alookup s.watches wd
  | none => (nearestAncestors p).findSome? (recursiveWatchAt s)

/-! ## Event classification and dispatch (`crates/daemon/src/watcher.rs`) -/

/-- `notify::event::DataChange` (only matched by wildcard in the source). -/
inductive DataChange where
  | any | size | content | other
deriving DecidableEq, Repr

/-- `notify::event::MetadataKind` (only matched by wildcard in the source). -/
inductive MetadataKind where
  | any | accessTime | writeTime | permissions | ownership | extended | other
deriving DecidableEq, Repr

/-- `notify::event::RenameMode`. -/
inductive RenameMode where
  | any | toMode | fromMode | both | other
deriving DecidableEq, Repr

/-- `notify::event::CreateKind`. -/
inductive CreateKind where
  | any | file | folder | other
deriving DecidableEq, Repr

/-- `notify::event::RemoveKind`. -/
inductive RemoveKind where
  | any | file | folder | other
deriving DecidableEq, Repr

/-- `notify::event::AccessKind` (only matched by wildcard in the source). -/
inductive AccessKind where
  | any | read | openKind | closeKind | other
deriving DecidableEq, Repr

/-- `notify::event::ModifyKind`. -/
inductive ModifyKind where
  | any
  | data (d : DataChange)
  | metadata (m : MetadataKind)
  | name (r : RenameMode)
  | other
deriving DecidableEq, Repr

/-- `notify::EventKind`. -/
inductive EventKind where
  | any
  | access (a : AccessKind)
  | create (c : CreateKind)
  | modify (m : ModifyKind)
  | remove (r : RemoveKind)
  | other
deriving DecidableEq, Repr

/-- `notify_to_inotify_mask`: classify a raw kind into an inotify mask,
OR-ing `IN_ISDIR` when the event subject is a directory. `Other` is dropped. -/
def notify_to_inotify_mask (kind : EventKind) (is_dir : Bool) : Option Nat :=
  let base : Option Nat :=
    match kind with
    | .create ck =>
      match ck with
      | .file => some IN_CREATE
      | .folder => some IN_CREATE
      | .any => some IN_CREATE
      | _ => some IN_CREATE
    | .modify mk =>
      match mk with
      | .data _ => some IN_MODIFY
      | .metadata _ => some IN_ATTRIB
      | .name .fromMode => some IN_MOVED_FROM
      | .name .toMode => some IN_MOVED_TO
      | .name .both => some (IN_MOVED_FROM ||| IN_MOVED_TO)
      | .name _ => some IN_MOVE
      | .any => some IN_MODIFY
      | _ => some IN_MODIFY
    | .remove rk =>
      match rk with
      | .file => some IN_DELETE
      | .folder => some IN_DELETE
      | .any => some IN_DELETE
      | _ => some IN_DELETE
    | .access _ => some IN_ACCESS
    | .other => none
    | .any => some IN_ALL_EVENTS
  match base with
  | none => none
  | some b => some (if is_dir then b ||| IN_ISDIR else b)

/-- `WatcherEvent`: a raw event from the polling adapter. -/
structure WatcherEvent where
  path : PathB
  kind : EventKind
  is_dir : Bool
deriving DecidableEq, Repr

/-- `Path::strip_prefix` on absolute paths, component-wise
(arguments: the path, then the base). -/
def strip_prefix_path : PathB → PathB → Option PathB
  | p, [] => some p
  | [], _ :: _ => none
  | a :: p, b :: base => if a = b then strip_prefix_path p base else none

/-- Join path components with `/` (0x2F), as `Path::to_str` renders a
relative path; the empty path renders as the empty byte string. -/
def joinComponents (p : PathB) : List Nat := List.intercalate [47] p

/-- The dispatcher's mutable state: the registry plus the rename-pairing
map and the global `COOKIE_COUNTER` (a wrapping `AtomicU32`, starting at 1). -/
structure DispatchState where
  reg : DaemonState
  pending_renames : List (PathB × Nat)
  cookie_counter : Nat
deriving DecidableEq, Repr

/-- The cookie computation in `EventDispatcher::handle_event`: a fresh cookie
for `IN_MOVED_FROM` (stashed under the event path), a pending-map lookup by
the event path for `IN_MOVED_TO` (fresh if absent), 0 otherwise. Returns
(cookie, pending map, counter). -/
def cookie_step (pending : List (PathB × Nat)) (counter : Nat) (mask : Nat) (path : PathB) :
    Nat × List (PathB × Nat) × Nat :=
  if mask &&& IN_MOVED_FROM ≠ 0 then
    (counter, ainsert pending path counter, (counter + 1) % 2 ^ 32)
  else if mask &&& IN_MOVED_TO ≠ 0 then
    match alookup pending path with
    | some ck => (ck, aerase pending path, counter)
    | none => (counter, pending, (counter + 1) % 2 ^ 32)
  else (0, pending, counter)

/-- One record produced by the dispatcher (`InotifyEvent` plus the optional
name); the same encoded bytes are framed and fanned out to every subscriber
of the watch. -/
structure Emitted where
  wd : Int
  mask : Nat
  cookie : Nat
  name : Option (List Nat)
deriving DecidableEq, Repr

/-- The serialized bytes of an emitted record: `to_bytes_with_name` when a
name is present, the bare 16-byte header (`len = 0`) otherwise. -/
def emittedBytes (e : Emitted) : List Nat :=
  match e.name with
  | some nb => to_bytes_with_name e.wd e.mask e.cookie nb
  | none => header_to_bytes e.wd e.mask e.cookie 0

/-- `EventDispatcher::handle_event`: attribute the event to a watch, classify,
filter by the watch mask, compute the cookie, relativise the name against the
watch root, and emit a single record (fanned out unchanged to subscribers). -/
def handle_event (s : DispatchState) (ev : WatcherEvent) : DispatchState × Option Emitted :=
  match find_watch_for_path s.reg ev.path with
  | none => (s, none)
  | some watch =>
    match notify_to_inotify_mask ev.kind ev.is_dir with
    | none => (s, none)
    | some mask =>
      if watch.mask &&& mask = 0 then (s, none)
      else
        let step := cookie_step s.pending_renames s.cookie_counter mask ev.path
        let name := (strip_prefix_path ev.path watch.path).map joinComponents
        ({ s with pending_renames := step.2.1, cookie_counter := step.2.2 },
         some { wd := watch.wd, mask := mask, cookie := step.1, name := name })

/-! ## Request handling (`crates/daemon/src/server.rs`) -/

/-- `Request` (`crates/protocol/src/message.rs`): `AddWatch` carries only a
path and a mask. -/
inductive Request where
  | registerClient : Request
  | addWatch (path : PathB) (mask : Nat) : Request
  | removeWatch (wd : Int) : Request
  | ping : Request
deriving DecidableEq, Repr

/-- `Response` (`crates/protocol/src/message.rs`). -/
inductive Response where
  | clientRegistered (client_id : Nat) : Response
  | watchAdded (wd : Int) : Response
  | watchRemoved : Response
  | error (message : String) : Response
  | pong : Response
deriving DecidableEq, Repr

/-- `handle_request`, parameterised by the filesystem oracle `pathExists`
(`Path::exists`). `AddWatch` truncates the mask, rejects missing paths
before touching the registry, and always passes `recursive = true`;
`RemoveWatch` reports an error when the wd is unknown. The formatted
path in each error message is abstracted to a fixed string. -/
def handle_request (pathExists : PathB → Bool) (s : DaemonState) (client_id : Nat) :
    Request → Response × DaemonState
  | .registerClient => (.clientRegistered client_id, s)
  | .addWatch path mask =>
    let event_mask := from_bits_truncate mask
    if pathExists path then
      let res := add_watch s client_id path event_mask true
      (.watchAdded res.1, res.2)
    else
      (.error "Path does not exist", s)
  | .removeWatch wd =>
    let res := remove_watch s client_id wd
    if res.1 then (.watchRemoved, res.2)
    else (.error "Watch descriptor not found", res.2)
  | .ping => (.pong, s)

/-! ## Interposition library response mapping (`crates/preload/src/lib.rs`) -/

def EINVAL : Int := 22

def EIO_errno : Int := 5

/-- Return value and errno of an interposed call. -/
structure LibcResult where
  ret : Int
  errno : Option Int
deriving DecidableEq, Repr

/-- The managed-fd tail of `inotify_add_watch`: translate the daemon's
response (`None` = protocol failure) into the kernel ABI. -/
def inotify_add_watch_result (resp : Option Response) : LibcResult :=
  match resp with
  | some (.watchAdded wd) => { ret := wd, errno := none }
  | some (.error _) => { ret := -1, errno := some EINVAL }
  | _ => { ret := -1, errno := some EIO_errno }

/-- The managed-fd tail of `inotify_rm_watch`. -/
def inotify_rm_watch_result (resp : Option Response) : LibcResult :=
  match resp with
  | some .watchRemoved => { ret := 0, errno := none }
  | some (.error _) => { ret := -1, errno := some EINVAL }
  | _ => { ret := -1, errno := some EIO_errno }

/-! ## The registry invariant (C1) -/

/-- The result of dropping client `c` from a watch's subscriber list:
`none` when the list empties (the watch is deleted), else the updated watch. -/
def filtered_watch (c : Nat) (w : WatchInfo) : Option WatchInfo :=
  if w.clients.filter (fun x => decide (x ≠ c)) = [] then none
  else some { w with clients := w.clients.filter (fun x => decide (x ≠ c)) }

/-- The inductive invariant of the registry maintained by the operations.
`bicond` and `watch_nonempty` are the two properties the spec claims; the
other fields are the auxiliary facts the induction needs (subscribers are
registered clients, and allocated ids/descriptors are below the counters). -/
structure RegInv (s : DaemonState) : Prop where
  watch_nonempty : ∀ wd w, alookup s.watches wd = some w → w.clients ≠ []
  watch_subs_registered : ∀ wd w, alookup s.watches wd = some w →
    ∀ c ∈ w.clients, (alookup s.clients c).isSome = true
  client_ids_lt : ∀ c lw, alookup s.clients c = some lw → c < s.next_client_id
  client_wds_lt : ∀ c lw, alookup s.clients c = some lw → ∀ wd ∈ lw, wd < s.next_wd
  watch_wds_lt : ∀ wd w, alookup s.watches wd = some w → wd < s.next_wd
  bicond : ∀ c lw wd w, alookup s.clients c = some lw → alookup s.watches wd = some w →
    (c ∈ w.clients ↔ wd ∈ lw)

/-! ## Concrete example states (used by the claim theorems and witnesses) -/

/-- The path `/tmp/x`. -/
def pathTmpX : PathB := [[116, 109, 112], [120]]

/-- The path `/w`. -/
def pathWRoot : PathB := [[119]]

/-- The bytes of `old.txt`. -/
def nameOld : List Nat := [111, 108, 100, 46, 116, 120, 116]

/-- The bytes of `new.txt`. -/
def nameNew : List Nat := [110, 101, 119, 46, 116, 120, 116]

/-- A recursive watch rooted at `/w`, wd 1, subscribing client 1, watching
all events. -/
def watchAtW : WatchInfo :=
  { wd := 1, path := pathWRoot, mask := IN_ALL_EVENTS, recursive := true, clients := [1] }

/-- A registry holding only `watchAtW`. -/
def regAtW : DaemonState :=
  { clients := [(1, [1])], watches := [(1, watchAtW)], path_to_wd := [(pathWRoot, 1)],
    next_client_id := 2, next_wd := 2 }

/-- Dispatcher state over `regAtW` with no pending renames and the cookie
counter at its initial value 1. -/
def dispatchAtW : DispatchState :=
  { reg := regAtW, pending_renames := [], cookie_counter := 1 }

/-- Raw event: `/w/old.txt` was renamed away (`ModifyKind::Name(RenameMode::From)`). -/
def evMovedFrom : WatcherEvent :=
  { path := [[119], [111, 108, 100, 46, 116, 120, 116]],
    kind := .modify (.name .fromMode), is_dir := false }

/-- Raw event: something was renamed to `/w/new.txt` (`RenameMode::To`). -/
def evMovedTo : WatcherEvent :=
  { path := [[119], [110, 101, 119, 46, 116, 120, 116]],
    kind := .modify (.name .toMode), is_dir := false }

/-- Raw event: the watch root `/w` itself was modified. -/
def evAtRoot : WatcherEvent :=
  { path := [[119]], kind := .modify (.data .any), is_dir := false }

/-- A recursive watch rooted at `/a`, wd 7. -/
def watchAtA : WatchInfo :=
  { wd := 7, path := [[97]], mask := IN_ALL_EVENTS, recursive := true, clients := [1] }

/-- A registry holding only `watchAtA`. -/
def regAtA : DaemonState :=
  { clients := [(1, [7])], watches := [(7, watchAtA)], path_to_wd := [([[97]], 7)],
    next_client_id := 2, next_wd := 8 }

/-- Dispatcher state over `regAtA`. -/
def dispatchAtA : DispatchState :=
  { reg := regAtA, pending_renames := [], cookie_counter := 1 }

/-- Raw event: a file was created at `/a/b/c`. -/
def evUnderA : WatcherEvent :=
  { path := [[97], [98], [99]], kind := .create .file, is_dir := false }

/-! ## Association-list lemmas -/

theorem alookup_aerase {K V : Type} [DecidableEq K] (l : List (K × V)) (k k' : K) :
    alookup (aerase l k) k' = if k = k' then none else alookup l k' := by
  induction l with
  | nil => simp [aerase, alookup]
  | cons e t ih =>
    obtain ⟨ek, ev⟩ := e
    by_cases h1 : ek = k
    · subst h1
      by_cases h2 : ek = k'
      · subst h2; simp [aerase, List.filter_cons, alookup] at ih ⊢; simpa using ih
      · simp [aerase, List.filter_cons, alookup, h2] at ih ⊢; simpa [h2] using ih
    · by_cases h2 : ek = k'
      · subst h2; simp [aerase, List.filter_cons, alookup, h1, Ne.symm h1]
      · simp [aerase, List.filter_cons, alookup, h1, h2] at ih ⊢; exact ih

theorem alookup_ainsert {K V : Type} [DecidableEq K] (l : List (K × V)) (k k' : K) (v : V) :
    alookup (ainsert l k v) k' = if k = k' then some v else alookup l k' := by
  by_cases h : k = k'
  · simp [ainsert, alookup, h]
  · simp [ainsert, alookup, h, alookup_aerase]

/-! ## Codec lemmas -/

theorem u32OfLE_u32ToLE (x : Nat) : u32OfLE (u32ToLE x) = x % 2 ^ 32 := by
  simp only [u32OfLE, u32ToLE]
  omega

/-- AND with the usize mask `!3` clears the two low bits. -/
theorem and_mask_four (x : Nat) (h : x < 2 ^ 64) : x &&& (2 ^ 64 - 4) = 4 * (x / 4) := by
  have h1 : (2 : Nat) ^ 64 - 4 = (2 ^ 62 - 1) <<< 2 := by norm_num [Nat.shiftLeft_eq]
  have h2 : 4 * (x / 4) = (x >>> 2) <<< 2 := by
    rw [Nat.shiftRight_eq_div_pow, Nat.shiftLeft_eq]
    norm_num [Nat.mul_comm]
  rw [h1, h2]
  apply Nat.eq_of_testBit_eq
  intro i
  simp only [Nat.testBit_and, Nat.testBit_shiftLeft, Nat.testBit_shiftRight,
    Nat.testBit_two_pow_sub_one]
  by_cases h2i : 2 ≤ i
  · by_cases h64 : i < 64
    · have e1 : 2 + (i - 2) = i := by omega
      have e2 : i - 2 < 62 := by omega
      simp [ge_iff_le, h2i, e1, e2]
    · have hx : x.testBit i = false :=
        Nat.testBit_lt_two_pow (lt_of_lt_of_le h (Nat.pow_le_pow_right (by norm_num) (by omega)))
      have hx2 : x.testBit (2 + (i - 2)) = false := by
        rwa [show 2 + (i - 2) = i from by omega]
      have e2 : ¬ (i - 2 < 62) := by omega
      simp [ge_iff_le, h2i, hx, hx2, e2]
  · simp [ge_iff_le, h2i]

theorem padded_name_len_eq (n : Nat) (h : n + 4 < 2 ^ 64) :
    padded_name_len n = 4 * ((n + 4) / 4) := by
  have e : n + 1 + 3 = n + 4 := by omega
  have := and_mask_four (n + 4) h
  simpa [padded_name_len, e] using this

theorem name_len_lt_padded (n : Nat) (h : n + 4 < 2 ^ 64) : n + 1 ≤ padded_name_len n := by
  rw [padded_name_len_eq n h]
  omega

theorem padded_name_len_le (n : Nat) : padded_name_len n ≤ n + 4 := by
  have e : n + 1 + 3 = n + 4 := by omega
  simpa [padded_name_len, e] using Nat.and_le_left (n := n + 4) (m := 2 ^ 64 - 4)

theorem to_bytes_with_name_length (wd : Int) (mask cookie : Nat) (name : List Nat)
    (h : name.length + 4 < 2 ^ 64) :
    (to_bytes_with_name wd mask cookie name).length = event_size_with_name name.length := by
  have h1 := name_len_lt_padded name.length h
  simp only [to_bytes_with_name, event_size_with_name, header_to_bytes, i32ToLE, u32ToLE,
    HEADER_SIZE, List.length_append, List.length_replicate, List.length_cons, List.length_nil]
  omega

/-! ## C3 — record layout -/

/-- C3 counterexample: the claimed total of 28 bytes is wrong — encoding
`(wd=1, mask=0x100, cookie=0, name="a.txt")` yields 24 bytes: the 16-byte
header plus the 8-byte name region (`(5+1+3) & !3 = 8`). -/
theorem c3_record_length_counterexample :
    (to_bytes_with_name 1 IN_CREATE 0 [97, 46, 116, 120, 116]).length = 24 ∧
    ¬ ((to_bytes_with_name 1 IN_CREATE 0 [97, 46, 116, 120, 116]).length = 28) :=
  ⟨by decide, by decide⟩

/-- C3 amended: encoding `(wd=1, mask=0x100, cookie=0, name="a.txt")` yields
exactly the claimed byte sequence — 24 bytes in total, not 28 — and in
general the `len` header field equals `((n+1+3) & !3)` for a name of `n`
bytes. -/
theorem c3_record_layout (wd : Int) (mask cookie : Nat) (name : List Nat)
    (h : name.length + 4 < 2 ^ 32) :
    to_bytes_with_name 1 IN_CREATE 0 [97, 46, 116, 120, 116] =
      [1, 0, 0, 0, 0, 1, 0, 0, 0, 0, 0, 0, 8, 0, 0, 0,
       97, 46, 116, 120, 116, 0, 0, 0] ∧
    lenField (to_bytes_with_name wd mask cookie name) =
      (name.length + 1 + 3) &&& (2 ^ 64 - 4) := by
  constructor
  · decide
  · have hr : lenField (to_bytes_with_name wd mask cookie name)
        = u32OfLE (u32ToLE (padded_name_len name.length % 2 ^ 32)) := rfl
    have h2 : padded_name_len name.length ≤ name.length + 4 := padded_name_len_le _
    have h3 : padded_name_len name.length % 2 ^ 32 = padded_name_len name.length :=
      Nat.mod_eq_of_lt (by omega)
    rw [hr, u32OfLE_u32ToLE]
    simp only [h3]
    rfl

/-- Witness for C3 at the empty name. -/
theorem c3_record_layout_witness :
    (([] : List Nat).length + 4 < 2 ^ 32) ∧
    (to_bytes_with_name 1 IN_CREATE 0 [97, 46, 116, 120, 116] =
      [1, 0, 0, 0, 0, 1, 0, 0, 0, 0, 0, 0, 8, 0, 0, 0,
       97, 46, 116, 120, 116, 0, 0, 0] ∧
     lenField (to_bytes_with_name 1 0 0 []) =
      (([] : List Nat).length + 1 + 3) &&& (2 ^ 64 - 4)) :=
  ⟨by norm_num, c3_record_layout 1 0 0 [] (by norm_num)⟩

/-! ## C7 — event size -/

/-- C7 counterexample: the claim also asserts `event_size(0) = 16`, but the
code (and its own unit test) gives `event_size_with_name(0) = 20`. -/
theorem c7_event_size_counterexample :
    event_size_with_name 0 = 20 ∧ event_size_with_name 0 ≠ 16 :=
  ⟨by decide, by decide⟩

/-- C7 amended: `event_size_with_name` matches the encoder's output length for
every name (the `16 + ((n+1+3) & ~3)` formula), `event_size_with_name 0 = 20`,
and a name-less event is instead encoded as the bare 16-byte header. -/
theorem c7_event_size_amended (wd : Int) (mask cookie : Nat) (name : List Nat)
    (h : name.length + 4 < 2 ^ 32) :
    (to_bytes_with_name wd mask cookie name).length = event_size_with_name name.length ∧
    event_size_with_name 0 = 20 ∧
    (header_to_bytes wd mask cookie 0).length = HEADER_SIZE :=
  ⟨to_bytes_with_name_length wd mask cookie name (lt_trans h (by norm_num)),
   by decide, rfl⟩

/-- Witness for C7 (amended) at the empty name. -/
theorem c7_event_size_amended_witness :
    (([] : List Nat).length + 4 < 2 ^ 32) ∧
    ((to_bytes_with_name 1 0 0 []).length = event_size_with_name ([] : List Nat).length ∧
     event_size_with_name 0 = 20 ∧
     (header_to_bytes 1 0 0 0).length = HEADER_SIZE) :=
  ⟨by norm_num, c7_event_size_amended 1 0 0 [] (by norm_num)⟩

/-! ## C4 — rename cookie pairing -/

/-- C4: on the spec's own rename scenario (recursive watch at `/w`,
`MOVED_FROM /w/old.txt` then `MOVED_TO /w/new.txt`), the dispatcher emits
cookies 1 and 2 — the `MOVED_TO` lookup keys the pending map by the
destination path, which never matches the source path stashed by
`MOVED_FROM`, so the two records never share a cookie. -/
theorem c4_rename_cookie_divergence :
    (handle_event dispatchAtW evMovedFrom).2 =
      some { wd := 1, mask := IN_MOVED_FROM, cookie := 1, name := some nameOld } ∧
    (handle_event (handle_event dispatchAtW evMovedFrom).1 evMovedTo).2 =
      some { wd := 1, mask := IN_MOVED_TO, cookie := 2, name := some nameNew } ∧
    (handle_event dispatchAtW evMovedFrom).2.map Emitted.cookie ≠
      (handle_event (handle_event dispatchAtW evMovedFrom).1 evMovedTo).2.map Emitted.cookie :=
  ⟨by decide, by decide, by decide⟩

/-! ## C6 — events at the watch root -/

theorem strip_prefix_path_self : ∀ p : PathB, strip_prefix_path p p = some [] := by
  intro p
  induction p with
  | nil => rfl
  | cons a t ih => simp [strip_prefix_path, ih]

/-- C6 counterexample: a modify event at the watch root `/w` is emitted with
`len = 4` and four trailing NUL bytes (the empty relative name, NUL-terminated
and padded), not `len = 0` with no trailer as claimed. -/
theorem c6_root_len_counterexample :
    (handle_event dispatchAtW evAtRoot).2.map emittedBytes =
      some [1, 0, 0, 0, 2, 0, 0, 0, 0, 0, 0, 0, 4, 0, 0, 0, 0, 0, 0, 0] ∧
    ¬ ((handle_event dispatchAtW evAtRoot).2.map (fun e => lenField (emittedBytes e)) = some 0) :=
  ⟨by decide, by decide⟩

/-- C6 amended: when the dispatcher emits a record for an event whose target
path equals the watch root, the record carries the empty name: `len = 4` and
exactly four zero bytes follow the 16-byte header (20 bytes in total). -/
theorem c6_root_event_amended (s : DispatchState) (ev : WatcherEvent) (w : WatchInfo)
    (s' : DispatchState) (e : Emitted)
    (hf : find_watch_for_path s.reg ev.path = some w)
    (hroot : ev.path = w.path)
    (he : handle_event s ev = (s', some e)) :
    e.name = some [] ∧ (emittedBytes e).length = 20 ∧ lenField (emittedBytes e) = 4 ∧
    (emittedBytes e).drop 16 = [0, 0, 0, 0] := by
  cases hm : notify_to_inotify_mask ev.kind ev.is_dir with
  | none => simp only [handle_event, hf, hm] at he; simp at he
  | some mask =>
    simp only [handle_event, hf, hm] at he
    by_cases hz : w.mask &&& mask = 0
    · rw [if_pos hz] at he; simp at he
    · rw [if_neg hz] at he
      rw [Prod.ext_iff] at he
      obtain ⟨-, hee⟩ := he
      rw [Option.some_inj] at hee
      subst hee
      have hname : ((strip_prefix_path ev.path w.path).map joinComponents) = some [] := by
        rw [hroot, strip_prefix_path_self]
        rfl
      refine ⟨hname, ?_, ?_, ?_⟩ <;> simp only [emittedBytes, hname] <;> rfl

/-- Witness for C6 (amended) at the concrete root-modify scenario. -/
theorem c6_root_event_amended_witness :
    (find_watch_for_path dispatchAtW.reg evAtRoot.path = some watchAtW ∧
     evAtRoot.path = watchAtW.path ∧
     handle_event dispatchAtW evAtRoot =
       (dispatchAtW, some { wd := 1, mask := IN_MODIFY, cookie := 0, name := some [] })) ∧
    (Emitted.name { wd := 1, mask := IN_MODIFY, cookie := 0, name := some [] } = some [] ∧
     (emittedBytes { wd := 1, mask := IN_MODIFY, cookie := 0, name := some [] }).length = 20 ∧
     lenField (emittedBytes { wd := 1, mask := IN_MODIFY, cookie := 0, name := some [] }) = 4 ∧
     (emittedBytes { wd := 1, mask := IN_MODIFY, cookie := 0, name := some [] }).drop 16 =
       [0, 0, 0, 0]) :=
  ⟨⟨by decide, by decide, by decide⟩,
   c6_root_event_amended dispatchAtW evAtRoot watchAtW dispatchAtW _
     (by decide) (by decide) (by decide)⟩

/-! ## C8 — error paths -/

/-- C8: `AddWatch` for a missing path and `RemoveWatch` for an unknown wd both
produce `Error{..}` and leave the registry untouched, and the interposition
library maps any `Error` response of either call to `-1` with
`errno = EINVAL`. -/
theorem c8_error_paths (pe : PathB → Bool) (s : DaemonState) (cid : Nat)
    (p : PathB) (m : Nat) (wd : Int) (msg : String)
    (hne : pe p = false) (hwd : alookup s.watches wd = none) :
    (∃ emsg, handle_request pe s cid (.addWatch p m) = (.error emsg, s)) ∧
    (∃ emsg, handle_request pe s cid (.removeWatch wd) = (.error emsg, s)) ∧
    inotify_add_watch_result (some (.error msg)) = { ret := -1, errno := some EINVAL } ∧
    inotify_rm_watch_result (some (.error msg)) = { ret := -1, errno := some EINVAL } :=
  ⟨⟨"Path does not exist", by simp [handle_request, hne]⟩,
   ⟨"Watch descriptor not found", by simp [handle_request, remove_watch, hwd]⟩,
   rfl, rfl⟩

/-- Witness for C8 on the empty registry with an always-missing filesystem. -/
theorem c8_error_paths_witness :
    ((fun _ : PathB => false) pathTmpX = false ∧
     alookup DaemonState.new.watches 1 = none) ∧
    ((∃ emsg, handle_request (fun _ => false) DaemonState.new 1 (.addWatch pathTmpX 0)
        = (.error emsg, DaemonState.new)) ∧
     (∃ emsg, handle_request (fun _ => false) DaemonState.new 1 (.removeWatch 1)
        = (.error emsg, DaemonState.new)) ∧
     inotify_add_watch_result (some (.error "boom")) = { ret := -1, errno := some EINVAL } ∧
     inotify_rm_watch_result (some (.error "boom")) = { ret := -1, errno := some EINVAL }) :=
  ⟨⟨rfl, rfl⟩, c8_error_paths (fun _ => false) DaemonState.new 1 pathTmpX 0 1 "boom" rfl rfl⟩

/-! ## C9 — AddWatch always creates recursive watches -/

/-- C9: the daemon's request handler passes the constant `true` as the
`recursive` argument, so a watch created by any IPC `AddWatch` (whose message
carries only a path and a mask) is recursive, whatever the mask. -/
theorem c9_recursive_always_true (pe : PathB → Bool) (s : DaemonState) (cid : Nat)
    (p : PathB) (m : Nat) (hex : pe p = true) (hnew : alookup s.path_to_wd p = none) :
    ∃ wd w,
      (handle_request pe s cid (.addWatch p m)).1 = .watchAdded wd ∧
      alookup (handle_request pe s cid (.addWatch p m)).2.watches wd = some w ∧
      w.recursive = true ∧ w.path = p := by
  refine ⟨s.next_wd,
    { wd := s.next_wd, path := p, mask := from_bits_truncate m,
      recursive := true, clients := [cid] }, ?_, ?_, rfl, rfl⟩
  · simp [handle_request, hex, add_watch, hnew]
  · simp [handle_request, hex, add_watch, hnew, alookup_ainsert]

/-- Witness for C9 on the empty registry. -/
theorem c9_recursive_always_true_witness :
    ((fun _ : PathB => true) pathTmpX = true ∧
     alookup DaemonState.new.path_to_wd pathTmpX = none) ∧
    (∃ wd w,
      (handle_request (fun _ => true) DaemonState.new 1 (.addWatch pathTmpX 0)).1
        = .watchAdded wd ∧
      alookup (handle_request (fun _ => true) DaemonState.new 1
          (.addWatch pathTmpX 0)).2.watches wd = some w ∧
      w.recursive = true ∧ w.path = pathTmpX) :=
  ⟨⟨rfl, rfl⟩, c9_recursive_always_true (fun _ => true) DaemonState.new 1 pathTmpX 0 rfl rfl⟩

/-! ## C2 / C10 — deduplicating add_watch -/

theorem add_watch_existing (s : DaemonState) (c : Nat) (p : PathB) (m : Nat) (r : Bool)
    (wd : Int) (w : WatchInfo)
    (hpw : alookup s.path_to_wd p = some wd) (hw : alookup s.watches wd = some w) :
    add_watch s c p m r =
      (wd, { s with
        watches := ainsert s.watches wd
          { w with clients := if c ∈ w.clients then w.clients else w.clients ++ [c],
                   mask := w.mask ||| m },
        clients := match alookup s.clients c with
                   | some lw => ainsert s.clients c (lw ++ [wd])
                   | none => s.clients }) := by
  simp [add_watch, hpw, hw]

theorem add_watch_existing_reg (s : DaemonState) (c : Nat) (p : PathB) (m : Nat) (r : Bool)
    (wd : Int) (w : WatchInfo) (lw : List Int)
    (hpw : alookup s.path_to_wd p = some wd) (hw : alookup s.watches wd = some w)
    (hc : alookup s.clients c = some lw) :
    add_watch s c p m r =
      (wd, { s with
        watches := ainsert s.watches wd
          { w with clients := if c ∈ w.clients then w.clients else w.clients ++ [c],
                   mask := w.mask ||| m },
        clients := ainsert s.clients c (lw ++ [wd]) }) := by
  simp [add_watch, hpw, hw, hc]

theorem remove_watch_found (s : DaemonState) (c : Nat) (wd : Int)
    (w : WatchInfo) (lw : List Int)
    (hw : alookup s.watches wd = some w) (hc : alookup s.clients c = some lw) :
    (remove_watch s c wd).1 = true ∧
    alookup (remove_watch s c wd).2.clients c = some (lw.filter (fun x => decide (x ≠ wd))) := by
  simp only [remove_watch, hw, hc]
  split
  · exact ⟨rfl, by simp [alookup_ainsert]⟩
  · exact ⟨rfl, by simp [alookup_ainsert]⟩

/-- C10: a second `add_watch` by the same client for the same already-watched
path appends the same wd to the client's list again (no deduplication,
duplicate entries result), and a single `remove_watch` then deletes every
occurrence of that wd from the list. -/
theorem c10_duplicate_client_wds (s : DaemonState) (c : Nat) (p : PathB)
    (m1 m2 : Nat) (r1 r2 : Bool) (wd : Int) (w : WatchInfo)
    (lw : List Int)
    (hpw : alookup s.path_to_wd p = some wd)
    (hw : alookup s.watches wd = some w)
    (hc : alookup s.clients c = some lw) :
    (add_watch s c p m1 r1).1 = wd ∧
    (add_watch (add_watch s c p m1 r1).2 c p m2 r2).1 = wd ∧
    alookup (add_watch (add_watch s c p m1 r1).2 c p m2 r2).2.clients c
      = some (lw ++ [wd] ++ [wd]) ∧
    2 ≤ (lw ++ [wd] ++ [wd]).count wd ∧
    (remove_watch (add_watch (add_watch s c p m1 r1).2 c p m2 r2).2 c wd).1 = true ∧
    alookup (remove_watch (add_watch (add_watch s c p m1 r1).2 c p m2 r2).2 c wd).2.clients c
      = some ((lw ++ [wd] ++ [wd]).filter (fun x => decide (x ≠ wd))) ∧
    wd ∉ (lw ++ [wd] ++ [wd]).filter (fun x => decide (x ≠ wd)) := by
  set w1 : WatchInfo :=
    { w with clients := if c ∈ w.clients then w.clients else w.clients ++ [c],
             mask := w.mask ||| m1 } with hw1def
  set S1 : DaemonState :=
    { s with watches := ainsert s.watches wd w1,
             clients := ainsert s.clients c (lw ++ [wd]) } with hS1def
  have e1 : add_watch s c p m1 r1 = (wd, S1) :=
    add_watch_existing_reg s c p m1 r1 wd w lw hpw hw hc
  have hpw1 : alookup S1.path_to_wd p = some wd := hpw
  have hwl1 : alookup S1.watches wd = some w1 := by
    rw [hS1def]; simp [alookup_ainsert]
  have hcl1 : alookup S1.clients c = some (lw ++ [wd]) := by
    rw [hS1def]; simp [alookup_ainsert]
  set w2 : WatchInfo :=
    { w1 with clients := if c ∈ w1.clients then w1.clients else w1.clients ++ [c],
              mask := w1.mask ||| m2 } with hw2def
  set S2 : DaemonState :=
    { S1 with watches := ainsert S1.watches wd w2,
              clients := ainsert S1.clients c (lw ++ [wd] ++ [wd]) } with hS2def
  have e2 : add_watch S1 c p m2 r2 = (wd, S2) :=
    add_watch_existing_reg S1 c p m2 r2 wd w1 (lw ++ [wd]) hpw1 hwl1 hcl1
  have hwl2 : alookup S2.watches wd = some w2 := by
    rw [hS2def]; simp [alookup_ainsert]
  have hcl2 : alookup S2.clients c = some (lw ++ [wd] ++ [wd]) := by
    rw [hS2def]; simp [alookup_ainsert]
  have hcount : (lw ++ [wd] ++ [wd]).count wd = lw.count wd + 2 := by
    simp [List.count_append]
  refine ⟨?_, ?_, ?_, ?_, ?_, ?_, ?_⟩
  · simp only [e1]
  · simp only [e1, e2]
  · simp only [e1, e2]
    exact hcl2
  · omega
  · simp only [e1, e2]
    exact (remove_watch_found S2 c wd w2 (lw ++ [wd] ++ [wd]) hwl2 hcl2).1
  · simp only [e1, e2]
    exact (remove_watch_found S2 c wd w2 (lw ++ [wd] ++ [wd]) hwl2 hcl2).2
  · simp

/-- Witness for C10 on a registry where client 1 already watches `/tmp/x`. -/
theorem c10_duplicate_client_wds_witness :
    (alookup (runOps DaemonState.new [.register, .addWatch 1 pathTmpX IN_CREATE true]).path_to_wd
        pathTmpX = some 1 ∧
     alookup (runOps DaemonState.new [.register, .addWatch 1 pathTmpX IN_CREATE true]).watches 1
        = some { wd := 1, path := pathTmpX, mask := IN_CREATE, recursive := true, clients := [1] } ∧
     alookup (runOps DaemonState.new [.register, .addWatch 1 pathTmpX IN_CREATE true]).clients 1
        = some [1]) ∧
    ((add_watch (runOps DaemonState.new [.register, .addWatch 1 pathTmpX IN_CREATE true])
        1 pathTmpX IN_CREATE true).1 = 1 ∧
     (add_watch (add_watch (runOps DaemonState.new [.register, .addWatch 1 pathTmpX IN_CREATE true])
        1 pathTmpX IN_CREATE true).2 1 pathTmpX IN_CREATE true).1 = 1 ∧
     alookup (add_watch (add_watch (runOps DaemonState.new
          [.register, .addWatch 1 pathTmpX IN_CREATE true])
        1 pathTmpX IN_CREATE true).2 1 pathTmpX IN_CREATE true).2.clients 1
       = some ([1] ++ [1] ++ [1]) ∧
     2 ≤ (([1] : List Int) ++ [1] ++ [1]).count 1 ∧
     (remove_watch (add_watch (add_watch (runOps DaemonState.new
          [.register, .addWatch 1 pathTmpX IN_CREATE true])
        1 pathTmpX IN_CREATE true).2 1 pathTmpX IN_CREATE true).2 1 1).1 = true ∧
     alookup (remove_watch (add_watch (add_watch (runOps DaemonState.new
          [.register, .addWatch 1 pathTmpX IN_CREATE true])
        1 pathTmpX IN_CREATE true).2 1 pathTmpX IN_CREATE true).2 1 1).2.clients 1
       = some ((([1] : List Int) ++ [1] ++ [1]).filter (fun x => decide (x ≠ 1))) ∧
     (1 : Int) ∉
       (([1] : List Int) ++ [1] ++ [1]).filter (fun x => decide (x ≠ 1))) :=
  ⟨⟨by decide, by decide, by decide⟩,
   c10_duplicate_client_wds
     (runOps DaemonState.new [.register, .addWatch 1 pathTmpX IN_CREATE true])
     1 pathTmpX IN_CREATE IN_CREATE true true 1
     { wd := 1, path := pathTmpX, mask := IN_CREATE, recursive := true, clients := [1] } [1]
     (by decide) (by decide) (by decide)⟩

/-- C2: adding an already-watched path returns the existing descriptor, adds
the client to the subscriber set (no duplicate), and ORs the masks; in
particular two clients adding `/tmp/x` with `IN_CREATE` and `IN_DELETE` both
get wd 1 and the watch's mask becomes `0x300`. -/
theorem c2_dedup_add_watch (s : DaemonState) (c2 : Nat) (p : PathB) (m2 : Nat) (r : Bool)
    (W : Int) (w : WatchInfo)
    (hpw : alookup s.path_to_wd p = some W)
    (hw : alookup s.watches W = some w) :
    ((add_watch s c2 p m2 r).1 = W ∧
     ∃ w', alookup (add_watch s c2 p m2 r).2.watches W = some w' ∧
       w'.mask = w.mask ||| m2 ∧
       (∀ x, x ∈ w'.clients ↔ x ∈ w.clients ∨ x = c2) ∧
       (w.clients.Nodup → w'.clients.Nodup)) ∧
    ((add_watch (runOps DaemonState.new [.register, .register]) 1 pathTmpX IN_CREATE true).1
        = 1 ∧
     (add_watch (add_watch (runOps DaemonState.new [.register, .register])
        1 pathTmpX IN_CREATE true).2 2 pathTmpX IN_DELETE true).1 = 1 ∧
     alookup (add_watch (add_watch (runOps DaemonState.new [.register, .register])
        1 pathTmpX IN_CREATE true).2 2 pathTmpX IN_DELETE true).2.watches 1 =
       some { wd := 1, path := pathTmpX, mask := IN_CREATE ||| IN_DELETE,
              recursive := true, clients := [1, 2] } ∧
     IN_CREATE ||| IN_DELETE = 0x300) := by
  constructor
  · rw [add_watch_existing s c2 p m2 r W w hpw hw]
    refine ⟨rfl,
      ⟨{ w with clients := if c2 ∈ w.clients then w.clients else w.clients ++ [c2],
                mask := w.mask ||| m2 }, ?_, rfl, ?_, ?_⟩⟩
    · simp [alookup_ainsert]
    · intro x
      by_cases hcm : c2 ∈ w.clients
      · simp only [if_pos hcm]
        constructor
        · exact Or.inl
        · rintro (h | rfl)
          · exact h
          · exact hcm
      · simp only [if_neg hcm]
        simp [List.mem_append]
    · intro hnd
      by_cases hcm : c2 ∈ w.clients
      · simpa [if_pos hcm] using hnd
      · simp only [if_neg hcm]
        exact List.Nodup.append hnd (List.nodup_singleton c2)
          (by simpa [List.disjoint_singleton] using hcm)
  · exact ⟨by decide, by decide, by decide, by decide⟩

/-- Witness for C2 on a registry where client 1 already watches `/tmp/x`. -/
theorem c2_dedup_add_watch_witness :
    (alookup (runOps DaemonState.new [.register, .addWatch 1 pathTmpX IN_CREATE true]).path_to_wd
        pathTmpX = some 1 ∧
     alookup (runOps DaemonState.new [.register, .addWatch 1 pathTmpX IN_CREATE true]).watches 1
        = some { wd := 1, path := pathTmpX, mask := IN_CREATE, recursive := true,
                 clients := [1] }) ∧
    (((add_watch (runOps DaemonState.new [.register, .addWatch 1 pathTmpX IN_CREATE true])
          2 pathTmpX IN_DELETE true).1 = 1 ∧
      ∃ w', alookup (add_watch (runOps DaemonState.new
            [.register, .addWatch 1 pathTmpX IN_CREATE true])
          2 pathTmpX IN_DELETE true).2.watches 1 = some w' ∧
        w'.mask = IN_CREATE ||| IN_DELETE ∧
        (∀ x, x ∈ w'.clients ↔
          x ∈ ({ wd := 1, path := pathTmpX, mask := IN_CREATE, recursive := true,
                 clients := [1] } : WatchInfo).clients ∨ x = 2) ∧
        (({ wd := 1, path := pathTmpX, mask := IN_CREATE, recursive := true,
            clients := [1] } : WatchInfo).clients.Nodup → w'.clients.Nodup)) ∧
     ((add_watch (runOps DaemonState.new [.register, .register]) 1 pathTmpX IN_CREATE true).1
        = 1 ∧
      (add_watch (add_watch (runOps DaemonState.new [.register, .register])
         1 pathTmpX IN_CREATE true).2 2 pathTmpX IN_DELETE true).1 = 1 ∧
      alookup (add_watch (add_watch (runOps DaemonState.new [.register, .register])
         1 pathTmpX IN_CREATE true).2 2 pathTmpX IN_DELETE true).2.watches 1 =
        some { wd := 1, path := pathTmpX, mask := IN_CREATE ||| IN_DELETE,
               recursive := true, clients := [1, 2] } ∧
      IN_CREATE ||| IN_DELETE = 0x300)) :=
  ⟨⟨by decide, by decide⟩,
   c2_dedup_add_watch (runOps DaemonState.new [.register, .addWatch 1 pathTmpX IN_CREATE true])
     2 pathTmpX IN_DELETE true 1
     { wd := 1, path := pathTmpX, mask := IN_CREATE, recursive := true, clients := [1] }
     (by decide) (by decide)⟩

/-! ## C5 — watch attribution -/

theorem nearestAncestors_cons (a : List Nat) (t : PathB) :
    nearestAncestors (a :: t) =
      (a :: t).dropLast :: nearestAncestors ((a :: t).dropLast) := by
  have hdl : (a :: t).dropLast = (a :: t).take t.length := by
    rw [List.dropLast_eq_take]
    simp
  unfold nearestAncestors
  rw [List.length_cons, List.range_succ, List.reverse_append]
  simp only [List.reverse_cons, List.reverse_nil, List.nil_append, List.cons_append,
    List.map_cons]
  rw [List.cons_eq_cons]
  refine ⟨hdl.symm, ?_⟩
  rw [show ((a :: t).dropLast).length = t.length from by simp]
  apply List.map_congr_left
  intro k hk
  have hk' : k < t.length := by
    have := List.mem_reverse.mp hk
    exact List.mem_range.mp this
  rw [hdl, List.take_take, min_eq_left (le_of_lt hk')]

theorem find_rec_ancestor_go_eq (s : DaemonState) :
    ∀ (n : Nat) (p : PathB), p.length = n →
      find_rec_ancestor_go s n p = (nearestAncestors p).findSome? (recursiveWatchAt s) := by
  intro n
  induction n with
  | zero =>
    intro p hp
    have : p = [] := List.eq_nil_of_length_eq_zero hp
    subst this
    rfl
  | succ n ih =>
    intro p hp
    cases p with
    | nil => simp at hp
    | cons a t =>
      have hlen : ((a :: t).dropLast).length = n := by
        simp only [List.length_dropLast, List.length_cons] at hp ⊢
        omega
      have iht := ih ((a :: t).dropLast) hlen
      rw [nearestAncestors_cons, List.findSome?_cons]
      simp only [find_rec_ancestor_go]
      cases hpw : alookup s.path_to_wd ((a :: t).dropLast) with
      | none => simp [hpw, recursiveWatchAt, iht]
      | some wd =>
        cases hwl : alookup s.watches wd with
        | none => simp [hpw, hwl, recursiveWatchAt, iht]
        | some w =>
          by_cases hr : w.recursive
          · simp [hpw, hwl, hr, recursiveWatchAt]
          · simp [hpw, hwl, hr, recursiveWatchAt, iht]

theorem find_watch_for_path_eq_spec (s : DaemonState) (p : PathB) :
    find_watch_for_path s p = find_watch_spec s p := by
  unfold find_watch_for_path find_watch_spec
  cases h : alookup s.path_to_wd p with
  | none => simp [h, find_rec_ancestor_go_eq s p.length p rfl]
  | some wd => simp [h]

/-- C5: `find_watch_for_path` equals the spec's description (exact match
first, else the nearest recursive ancestor, else none), and concretely an
event at `/a/b/c` under a recursive watch rooted at `/a` is attributed to
that watch and emitted with name `b/c` (bytes `[98, 47, 99]`). -/
theorem c5_find_watch_refinement :
    (∀ (s : DaemonState) (p : PathB), find_watch_for_path s p = find_watch_spec s p) ∧
    find_watch_for_path regAtA [[97], [98], [99]] = some watchAtA ∧
    (handle_event dispatchAtA evUnderA).2 =
      some { wd := 7, mask := IN_CREATE, cookie := 0, name := some [98, 47, 99] } :=
  ⟨find_watch_for_path_eq_spec, by decide, by decide⟩

/-! ## C1 — registry invariant preservation -/

theorem regInv_new : RegInv DaemonState.new := by
  constructor
  · intro wd w h; simp [DaemonState.new, alookup] at h
  · intro wd w h; simp [DaemonState.new, alookup] at h
  · intro c lw h; simp [DaemonState.new, alookup] at h
  · intro c lw h; simp [DaemonState.new, alookup] at h
  · intro wd w h; simp [DaemonState.new, alookup] at h
  · intro c lw wd w h; simp [DaemonState.new, alookup] at h

theorem filter_ne_idem {α : Type} [DecidableEq α] (l : List α) (c : α) :
    (l.filter (fun x => decide (x ≠ c))).filter (fun x => decide (x ≠ c))
      = l.filter (fun x => decide (x ≠ c)) := by
  rw [List.filter_filter]
  congr 1
  funext a
  exact Bool.and_self _

theorem filtered_watch_eq_some (c : Nat) (w w' : WatchInfo)
    (h : filtered_watch c w = some w') :
    w' = { w with clients := w.clients.filter (fun x => decide (x ≠ c)) } ∧
    w.clients.filter (fun x => decide (x ≠ c)) ≠ [] := by
  unfold filtered_watch at h
  split at h
  · exact absurd h (by simp)
  · exact ⟨(Option.some_inj.mp h).symm, by assumption⟩

theorem remove_client_watches_lookup (c : Nat) (lws : List Int)
    (ws : List (Int × WatchInfo)) (pw : List (PathB × Int))
    (wd : Int) :
    alookup (remove_client_watches c lws ws pw).1 wd =
      if wd ∈ lws then (alookup ws wd).bind (filtered_watch c)
      else alookup ws wd := by
  induction lws generalizing ws pw with
  | nil => simp [remove_client_watches]
  | cons wd0 rest ih =>
    cases hw0 : alookup ws wd0 with
    | none =>
      simp only [remove_client_watches, hw0]
      rw [ih]
      by_cases h0 : wd = wd0
      · subst h0
        by_cases hr : wd ∈ rest
        · simp [hr, hw0]
        · simp [hr, hw0]
      · by_cases hr : wd ∈ rest
        · simp [hr, List.mem_cons]
        · simp [hr, h0, List.mem_cons]
    | some w0 =>
      by_cases hcl0 : w0.clients.filter (fun x => decide (x ≠ c)) = []
      · have hfw0 : filtered_watch c w0 = none := by
          unfold filtered_watch
          rw [if_pos hcl0]
        simp only [remove_client_watches, hw0, if_pos hcl0]
        rw [ih]
        by_cases h0 : wd = wd0
        · subst h0
          by_cases hr : wd ∈ rest
          · simp [hr, alookup_aerase, hw0, hfw0]
          · simp [hr, alookup_aerase, hw0, hfw0]
        · have hne : ¬ (wd0 = wd) := fun h => h0 h.symm
          by_cases hr : wd ∈ rest
          · simp [hr, alookup_aerase, hne, List.mem_cons]
          · simp [hr, alookup_aerase, hne, h0, List.mem_cons]
      · have hfw0 : filtered_watch c w0 =
            some { w0 with clients := w0.clients.filter (fun x => decide (x ≠ c)) } := by
          unfold filtered_watch
          rw [if_neg hcl0]
        have hfw1 : filtered_watch c
              { w0 with clients := w0.clients.filter (fun x => decide (x ≠ c)) } =
            some { w0 with clients := w0.clients.filter (fun x => decide (x ≠ c)) } := by
          unfold filtered_watch
          simp only [filter_ne_idem]
          rw [if_neg hcl0]
        simp only [remove_client_watches, hw0, if_neg hcl0]
        rw [ih]
        by_cases h0 : wd = wd0
        · subst h0
          by_cases hr : wd ∈ rest
          · simp only [hr, if_true, alookup_ainsert, if_pos rfl, hw0, List.mem_cons,
              true_or, Option.some_bind, hfw0]
            simpa using hfw1
          · simp [hr, alookup_ainsert, hw0, hfw0]
        · have hne : ¬ (wd0 = wd) := fun h => h0 h.symm
          by_cases hr : wd ∈ rest
          · simp [hr, alookup_ainsert, hne, List.mem_cons]
          · simp [hr, alookup_ainsert, hne, h0, List.mem_cons]

theorem regInv_register (s : DaemonState) (h : RegInv s) : RegInv (register_client s).2 := by
  constructor
  · exact h.watch_nonempty
  · intro wd w hw c hc
    have hreg := h.watch_subs_registered wd w hw c hc
    show (alookup (ainsert s.clients s.next_client_id []) c).isSome = true
    rw [alookup_ainsert]
    split
    · rfl
    · exact hreg
  · intro c lw hcl
    replace hcl : (if s.next_client_id = c then some [] else alookup s.clients c) = some lw := by
      rw [← alookup_ainsert]
      exact hcl
    show c < s.next_client_id + 1
    split at hcl
    · omega
    · have := h.client_ids_lt c lw hcl
      omega
  · intro c lw hcl
    replace hcl : (if s.next_client_id = c then some [] else alookup s.clients c) = some lw := by
      rw [← alookup_ainsert]
      exact hcl
    split at hcl
    · obtain rfl : ([] : List Int) = lw := Option.some_inj.mp hcl
      intro wd hwd
      exact absurd hwd (List.not_mem_nil wd)
    · exact h.client_wds_lt c lw hcl
  · exact h.watch_wds_lt
  · intro c lw wd w hcl hwl
    replace hcl : (if s.next_client_id = c then some [] else alookup s.clients c) = some lw := by
      rw [← alookup_ainsert]
      exact hcl
    split at hcl
    · obtain rfl : ([] : List Int) = lw := Option.some_inj.mp hcl
      rename_i heq
      constructor
      · intro hcmem
        have hreg := h.watch_subs_registered wd w hwl c hcmem
        obtain ⟨lw', hlw'⟩ := Option.isSome_iff_exists.mp hreg
        have := h.client_ids_lt c lw' hlw'
        omega
      · intro hmem
        exact absurd hmem (List.not_mem_nil wd)
    · exact h.bicond c lw wd w hcl hwl

theorem regInv_unregister (s : DaemonState) (c : Nat) (h : RegInv s) :
    RegInv (unregister_client s c) := by
  cases hcl : alookup s.clients c with
  | none => simpa [unregister_client, hcl] using h
  | some lws =>
    have hstate : unregister_client s c =
        { s with watches := (remove_client_watches c lws s.watches s.path_to_wd).1,
                 path_to_wd := (remove_client_watches c lws s.watches s.path_to_wd).2,
                 clients := aerase s.clients c } := by
      simp [unregister_client, hcl]
    rw [hstate]
    constructor
    · intro wd w hw
      replace hw : alookup (remove_client_watches c lws s.watches s.path_to_wd).1 wd
          = some w := hw
      rw [remove_client_watches_lookup] at hw
      split at hw
      · cases hws : alookup s.watches wd with
        | none => rw [hws] at hw; exact absurd hw (by simp)
        | some w0 =>
          rw [hws] at hw
          obtain ⟨rfl, hne⟩ := filtered_watch_eq_some c w0 w (by simpa using hw)
          simpa using hne
      · exact h.watch_nonempty wd w hw
    · intro wd w hw c' hc'
      replace hw : alookup (remove_client_watches c lws s.watches s.path_to_wd).1 wd
          = some w := hw
      rw [remove_client_watches_lookup] at hw
      show (alookup (aerase s.clients c) c').isSome = true
      rw [alookup_aerase]
      split at hw
      · cases hws : alookup s.watches wd with
        | none => rw [hws] at hw; exact absurd hw (by simp)
        | some w0 =>
          rw [hws] at hw
          obtain ⟨rfl, -⟩ := filtered_watch_eq_some c w0 w (by simpa using hw)
          have hcmem := List.mem_filter.mp hc'
          have hcne : c' ≠ c := by simpa using hcmem.2
          rw [if_neg (fun hh => hcne hh.symm)]
          exact h.watch_subs_registered wd w0 hws c' hcmem.1
      · have hcne : c' ≠ c := by
          intro hcc
          subst hcc
          rename_i hnotin
          exact hnotin ((h.bicond c' lws wd w hcl hw).mp hc')
        rw [if_neg (fun hh => hcne hh.symm)]
        exact h.watch_subs_registered wd w hw c' hc'
    · intro c' lw hcl'
      replace hcl' : (if c = c' then none else alookup s.clients c') = some lw := by
        rw [← alookup_aerase]
        exact hcl'
      show c' < s.next_client_id
      split at hcl'
      · exact absurd hcl' (by simp)
      · exact h.client_ids_lt c' lw hcl'
    · intro c' lw hcl'
      replace hcl' : (if c = c' then none else alookup s.clients c') = some lw := by
        rw [← alookup_aerase]
        exact hcl'
      show ∀ wd ∈ lw, wd < s.next_wd
      split at hcl'
      · exact absurd hcl' (by simp)
      · exact h.client_wds_lt c' lw hcl'
    · intro wd w hw
      replace hw : alookup (remove_client_watches c lws s.watches s.path_to_wd).1 wd
          = some w := hw
      rw [remove_client_watches_lookup] at hw
      show wd < s.next_wd
      split at hw
      · cases hws : alookup s.watches wd with
        | none => rw [hws] at hw; exact absurd hw (by simp)
        | some w0 => exact h.watch_wds_lt wd w0 hws
      · exact h.watch_wds_lt wd w hw
    · intro c' lw wd w hcl' hw
      replace hcl' : (if c = c' then none else alookup s.clients c') = some lw := by
        rw [← alookup_aerase]
        exact hcl'
      replace hw : alookup (remove_client_watches c lws s.watches s.path_to_wd).1 wd
          = some w := hw
      rw [remove_client_watches_lookup] at hw
      split at hcl'
      · exact absurd hcl' (by simp)
      · rename_i hcnec
        split at hw
        · cases hws : alookup s.watches wd with
          | none => rw [hws] at hw; exact absurd hw (by simp)
          | some w0 =>
            rw [hws] at hw
            obtain ⟨rfl, -⟩ := filtered_watch_eq_some c w0 w (by simpa using hw)
            have hb := h.bicond c' lw wd w0 hcl' hws
            constructor
            · intro hmem
              exact hb.mp (List.mem_filter.mp hmem).1
            · intro hmem
              refine List.mem_filter.mpr ⟨hb.mpr hmem, ?_⟩
              simpa using fun hcc => hcnec hcc.symm
        · exact h.bicond c' lw wd w hcl' hw

theorem regInv_add_fresh (s : DaemonState) (c : Nat) (p : PathB) (m : Nat) (r : Bool)
    (lwc : List Int) (h : RegInv s) (hlwc : alookup s.clients c = some lwc) :
    RegInv { s with
      watches := ainsert s.watches s.next_wd
        { wd := s.next_wd, path := p, mask := m, recursive := r, clients := [c] },
      path_to_wd := ainsert s.path_to_wd p s.next_wd,
      clients := ainsert s.clients c (lwc ++ [s.next_wd]),
      next_wd := s.next_wd + 1 } := by
  constructor
  · intro wd w hw
    replace hw : (if s.next_wd = wd then
        some { wd := s.next_wd, path := p, mask := m, recursive := r, clients := [c] }
        else alookup s.watches wd) = some w := by
      rw [← alookup_ainsert]
      exact hw
    split at hw
    · obtain rfl := Option.some_inj.mp hw
      simp
    · exact h.watch_nonempty wd w hw
  · intro wd w hw c' hc'
    replace hw : (if s.next_wd = wd then
        some { wd := s.next_wd, path := p, mask := m, recursive := r, clients := [c] }
        else alookup s.watches wd) = some w := by
      rw [← alookup_ainsert]
      exact hw
    show (alookup (ainsert s.clients c (lwc ++ [s.next_wd])) c').isSome = true
    rw [alookup_ainsert]
    split
    · rfl
    · rename_i hcc
      split at hw
      · obtain rfl := Option.some_inj.mp hw
        have : c' = c := by simpa using hc'
        exact absurd this.symm hcc
      · exact h.watch_subs_registered wd w hw c' hc'
  · intro c' lw hcl'
    replace hcl' : (if c = c' then some (lwc ++ [s.next_wd]) else alookup s.clients c')
        = some lw := by
      rw [← alookup_ainsert]
      exact hcl'
    show c' < s.next_client_id
    split at hcl'
    · rename_i heq
      exact heq ▸ h.client_ids_lt c lwc hlwc
    · exact h.client_ids_lt c' lw hcl'
  · intro c' lw hcl'
    replace hcl' : (if c = c' then some (lwc ++ [s.next_wd]) else alookup s.clients c')
        = some lw := by
      rw [← alookup_ainsert]
      exact hcl'
    show ∀ wd ∈ lw, wd < s.next_wd + 1
    split at hcl'
    · obtain rfl := Option.some_inj.mp hcl'
      intro wd hwd
      rcases List.mem_append.mp hwd with h1 | h2
      · have := h.client_wds_lt c lwc hlwc wd h1
        omega
      · have : wd = s.next_wd := by simpa using h2
        omega
    · intro wd hwd
      have := h.client_wds_lt c' lw hcl' wd hwd
      omega
  · intro wd w hw
    replace hw : (if s.next_wd = wd then
        some { wd := s.next_wd, path := p, mask := m, recursive := r, clients := [c] }
        else alookup s.watches wd) = some w := by
      rw [← alookup_ainsert]
      exact hw
    show wd < s.next_wd + 1
    split at hw
    · rename_i heq
      omega
    · have := h.watch_wds_lt wd w hw
      omega
  · intro c' lw wd w hcl' hw
    replace hcl' : (if c = c' then some (lwc ++ [s.next_wd]) else alookup s.clients c')
        = some lw := by
      rw [← alookup_ainsert]
      exact hcl'
    replace hw : (if s.next_wd = wd then
        some { wd := s.next_wd, path := p, mask := m, recursive := r, clients := [c] }
        else alookup s.watches wd) = some w := by
      rw [← alookup_ainsert]
      exact hw
    split at hcl'
    · rename_i heqc
      obtain rfl := Option.some_inj.mp hcl'
      subst heqc
      split at hw
      · rename_i heqw
        obtain rfl := Option.some_inj.mp hw
        subst heqw
        simp
      · rename_i hneqw
        have hb := h.bicond c lwc wd w hlwc hw
        constructor
        · intro hm
          exact List.mem_append.mpr (Or.inl (hb.mp hm))
        · intro hm
          rcases List.mem_append.mp hm with h1 | h2
          · exact hb.mpr h1
          · have : wd = s.next_wd := by simpa using h2
            exact absurd this.symm hneqw
    · rename_i hcnec
      split at hw
      · rename_i heqw
        obtain rfl := Option.some_inj.mp hw
        subst heqw
        constructor
        · intro hm
          have : c' = c := by simpa using hm
          exact absurd this.symm hcnec
        · intro hm
          exact absurd (h.client_wds_lt c' lw hcl' _ hm) (lt_irrefl _)
      · exact h.bicond c' lw wd w hcl' hw

theorem regInv_add_existing (s : DaemonState) (c : Nat) (m : Nat) (wd : Int)
    (w : WatchInfo) (lwc : List Int) (h : RegInv s)
    (hw : alookup s.watches wd = some w) (hlwc : alookup s.clients c = some lwc) :
    RegInv { s with
      watches := ainsert s.watches wd
        { w with clients := if c ∈ w.clients then w.clients else w.clients ++ [c],
                 mask := w.mask ||| m },
      clients := ainsert s.clients c (lwc ++ [wd]) } := by
  set w' : WatchInfo :=
    { w with clients := if c ∈ w.clients then w.clients else w.clients ++ [c],
             mask := w.mask ||| m } with hwdef
  have hwmem : ∀ x, x ∈ w'.clients ↔ x ∈ w.clients ∨ x = c := by
    intro x
    rw [hwdef]
    by_cases hcm : c ∈ w.clients
    · simp only [if_pos hcm]
      constructor
      · exact Or.inl
      · rintro (hx | rfl)
        · exact hx
        · exact hcm
    · simp only [if_neg hcm]
      simp [List.mem_append]
  constructor
  · intro wd0 w0 hw0
    replace hw0 : (if wd = wd0 then some w' else alookup s.watches wd0) = some w0 := by
      rw [← alookup_ainsert]
      exact hw0
    split at hw0
    · obtain rfl := Option.some_inj.mp hw0
      intro hcontra
      have hcmem : c ∈ w'.clients := (hwmem c).mpr (Or.inr rfl)
      rw [hcontra] at hcmem
      exact List.not_mem_nil c hcmem
    · exact h.watch_nonempty wd0 w0 hw0
  · intro wd0 w0 hw0 c' hc'
    replace hw0 : (if wd = wd0 then some w' else alookup s.watches wd0) = some w0 := by
      rw [← alookup_ainsert]
      exact hw0
    show (alookup (ainsert s.clients c (lwc ++ [wd])) c').isSome = true
    rw [alookup_ainsert]
    split
    · rfl
    · rename_i hcc
      split at hw0
      · obtain rfl := Option.some_inj.mp hw0
        rcases (hwmem c').mp hc' with hx | rfl
        · exact h.watch_subs_registered wd w hw c' hx
        · exact absurd rfl hcc
      · exact h.watch_subs_registered wd0 w0 hw0 c' hc'
  · intro c' lw hcl'
    replace hcl' : (if c = c' then some (lwc ++ [wd]) else alookup s.clients c')
        = some lw := by
      rw [← alookup_ainsert]
      exact hcl'
    show c' < s.next_client_id
    split at hcl'
    · rename_i heq
      exact heq ▸ h.client_ids_lt c lwc hlwc
    · exact h.client_ids_lt c' lw hcl'
  · intro c' lw hcl'
    replace hcl' : (if c = c' then some (lwc ++ [wd]) else alookup s.clients c')
        = some lw := by
      rw [← alookup_ainsert]
      exact hcl'
    show ∀ wd0 ∈ lw, wd0 < s.next_wd
    split at hcl'
    · obtain rfl := Option.some_inj.mp hcl'
      intro wd0 hwd0
      rcases List.mem_append.mp hwd0 with h1 | h2
      · exact h.client_wds_lt c lwc hlwc wd0 h1
      · have : wd0 = wd := by simpa using h2
        exact this ▸ h.watch_wds_lt wd w hw
    · exact h.client_wds_lt c' lw hcl'
  · intro wd0 w0 hw0
    replace hw0 : (if wd = wd0 then some w' else alookup s.watches wd0) = some w0 := by
      rw [← alookup_ainsert]
      exact hw0
    show wd0 < s.next_wd
    split at hw0
    · rename_i heq
      exact heq ▸ h.watch_wds_lt wd w hw
    · exact h.watch_wds_lt wd0 w0 hw0
  · intro c' lw wd0 w0 hcl' hw0
    replace hcl' : (if c = c' then some (lwc ++ [wd]) else alookup s.clients c')
        = some lw := by
      rw [← alookup_ainsert]
      exact hcl'
    replace hw0 : (if wd = wd0 then some w' else alookup s.watches wd0) = some w0 := by
      rw [← alookup_ainsert]
      exact hw0
    split at hcl'
    · rename_i heqc
      obtain rfl := Option.some_inj.mp hcl'
      subst heqc
      split at hw0
      · rename_i heqw
        obtain rfl := Option.some_inj.mp hw0
        subst heqw
        constructor
        · intro _
          exact List.mem_append.mpr (Or.inr (by simp))
        · intro _
          exact (hwmem c).mpr (Or.inr rfl)
      · rename_i hneqw
        have hb := h.bicond c lwc wd0 w0 hlwc hw0
        constructor
        · intro hm
          exact List.mem_append.mpr (Or.inl (hb.mp hm))
        · intro hm
          rcases List.mem_append.mp hm with h1 | h2
          · exact hb.mpr h1
          · have : wd0 = wd := by simpa using h2
            exact absurd this.symm hneqw
    · rename_i hcnec
      split at hw0
      · rename_i heqw
        obtain rfl := Option.some_inj.mp hw0
        subst heqw
        have hb := h.bicond c' lw wd w hcl' hw
        constructor
        · intro hm
          rcases (hwmem c').mp hm with hx | rfl
          · exact hb.mp hx
          · exact absurd rfl hcnec
        · intro hm
          exact (hwmem c').mpr (Or.inl (hb.mpr hm))
      · exact h.bicond c' lw wd0 w0 hcl' hw0

theorem regInv_add (s : DaemonState) (c : Nat) (p : PathB) (m : Nat) (r : Bool)
    (h : RegInv s) (hc : (alookup s.clients c).isSome = true) :
    RegInv (add_watch s c p m r).2 := by
  obtain ⟨lwc, hlwc⟩ := Option.isSome_iff_exists.mp hc
  cases hpw : alookup s.path_to_wd p with
  | none =>
    have hstate : (add_watch s c p m r).2 = { s with
        watches := ainsert s.watches s.next_wd
          { wd := s.next_wd, path := p, mask := m, recursive := r, clients := [c] },
        path_to_wd := ainsert s.path_to_wd p s.next_wd,
        clients := ainsert s.clients c (lwc ++ [s.next_wd]),
        next_wd := s.next_wd + 1 } := by
      simp [add_watch, hpw, hlwc]
    rw [hstate]
    exact regInv_add_fresh s c p m r lwc h hlwc
  | some wd0 =>
    cases hwl : alookup s.watches wd0 with
    | none =>
      have hstate : (add_watch s c p m r).2 = { s with
          watches := ainsert s.watches s.next_wd
            { wd := s.next_wd, path := p, mask := m, recursive := r, clients := [c] },
          path_to_wd := ainsert s.path_to_wd p s.next_wd,
          clients := ainsert s.clients c (lwc ++ [s.next_wd]),
          next_wd := s.next_wd + 1 } := by
        simp [add_watch, hpw, hwl, hlwc]
      rw [hstate]
      exact regInv_add_fresh s c p m r lwc h hlwc
    | some w =>
      have hstate : (add_watch s c p m r).2 = { s with
          watches := ainsert s.watches wd0
            { w with clients := if c ∈ w.clients then w.clients else w.clients ++ [c],
                     mask := w.mask ||| m },
          clients := ainsert s.clients c (lwc ++ [wd0]) } := by
        simp [add_watch, hpw, hwl, hlwc]
      rw [hstate]
      exact regInv_add_existing s c m wd0 w lwc h hwl hlwc

theorem regInv_remove (s : DaemonState) (c : Nat) (wd : Int)
    (h : RegInv s) (hc : (alookup s.clients c).isSome = true) :
    RegInv (remove_watch s c wd).2 := by
  obtain ⟨lwc, hlwc⟩ := Option.isSome_iff_exists.mp hc
  cases hwl : alookup s.watches wd with
  | none => simpa [remove_watch, hwl] using h
  | some w =>
    by_cases hcl0 : w.clients.filter (fun x => decide (x ≠ c)) = []
    · have hstate : (remove_watch s c wd).2 = { s with
          watches := aerase s.watches wd,
          path_to_wd := aerase s.path_to_wd w.path,
          clients := ainsert s.clients c (lwc.filter (fun x => decide (x ≠ wd))) } := by
        simp only [remove_watch, hwl, hlwc]
        rw [if_pos hcl0]
      rw [hstate]
      constructor
      · intro wd0 w0 hw0
        replace hw0 : (if wd = wd0 then none else alookup s.watches wd0) = some w0 := by
          rw [← alookup_aerase]
          exact hw0
        split at hw0
        · exact absurd hw0 (by simp)
        · exact h.watch_nonempty wd0 w0 hw0
      · intro wd0 w0 hw0 c' hc'
        replace hw0 : (if wd = wd0 then none else alookup s.watches wd0) = some w0 := by
          rw [← alookup_aerase]
          exact hw0
        show (alookup (ainsert s.clients c (lwc.filter (fun x => decide (x ≠ wd)))) c').isSome
            = true
        rw [alookup_ainsert]
        split
        · rfl
        · split at hw0
          · exact absurd hw0 (by simp)
          · exact h.watch_subs_registered wd0 w0 hw0 c' hc'
      · intro c' lw hcl'
        replace hcl' : (if c = c' then some (lwc.filter (fun x => decide (x ≠ wd)))
            else alookup s.clients c') = some lw := by
          rw [← alookup_ainsert]
          exact hcl'
        show c' < s.next_client_id
        split at hcl'
        · rename_i heq
          exact heq ▸ h.client_ids_lt c lwc hlwc
        · exact h.client_ids_lt c' lw hcl'
      · intro c' lw hcl'
        replace hcl' : (if c = c' then some (lwc.filter (fun x => decide (x ≠ wd)))
            else alookup s.clients c') = some lw := by
          rw [← alookup_ainsert]
          exact hcl'
        show ∀ wd0 ∈ lw, wd0 < s.next_wd
        split at hcl'
        · obtain rfl := Option.some_inj.mp hcl'
          intro wd0 hwd0
          exact h.client_wds_lt c lwc hlwc wd0 (List.mem_filter.mp hwd0).1
        · exact h.client_wds_lt c' lw hcl'
      · intro wd0 w0 hw0
        replace hw0 : (if wd = wd0 then none else alookup s.watches wd0) = some w0 := by
          rw [← alookup_aerase]
          exact hw0
        show wd0 < s.next_wd
        split at hw0
        · exact absurd hw0 (by simp)
        · exact h.watch_wds_lt wd0 w0 hw0
      · intro c' lw wd0 w0 hcl' hw0
        replace hcl' : (if c = c' then some (lwc.filter (fun x => decide (x ≠ wd)))
            else alookup s.clients c') = some lw := by
          rw [← alookup_ainsert]
          exact hcl'
        replace hw0 : (if wd = wd0 then none else alookup s.watches wd0) = some w0 := by
          rw [← alookup_aerase]
          exact hw0
        split at hw0
        · exact absurd hw0 (by simp)
        · rename_i hneqw
          split at hcl'
          · rename_i heqc
            obtain rfl := Option.some_inj.mp hcl'
            subst heqc
            have hb := h.bicond c lwc wd0 w0 hlwc hw0
            constructor
            · intro hm
              refine List.mem_filter.mpr ⟨hb.mp hm, ?_⟩
              simpa using fun hh => hneqw hh.symm
            · intro hm
              exact hb.mpr (List.mem_filter.mp hm).1
          · exact h.bicond c' lw wd0 w0 hcl' hw0
    · have hstate : (remove_watch s c wd).2 = { s with
          watches := ainsert s.watches wd
            { w with clients := w.clients.filter (fun x => decide (x ≠ c)) },
          clients := ainsert s.clients c (lwc.filter (fun x => decide (x ≠ wd))) } := by
        simp only [remove_watch, hwl, hlwc]
        rw [if_neg hcl0]
      rw [hstate]
      set w' : WatchInfo :=
        { w with clients := w.clients.filter (fun x => decide (x ≠ c)) } with hwdef
      constructor
      · intro wd0 w0 hw0
        replace hw0 : (if wd = wd0 then some w' else alookup s.watches wd0) = some w0 := by
          rw [← alookup_ainsert]
          exact hw0
        split at hw0
        · obtain rfl := Option.some_inj.mp hw0
          exact hcl0
        · exact h.watch_nonempty wd0 w0 hw0
      · intro wd0 w0 hw0 c' hc'
        replace hw0 : (if wd = wd0 then some w' else alookup s.watches wd0) = some w0 := by
          rw [← alookup_ainsert]
          exact hw0
        show (alookup (ainsert s.clients c (lwc.filter (fun x => decide (x ≠ wd)))) c').isSome
            = true
        rw [alookup_ainsert]
        split
        · rfl
        · split at hw0
          · obtain rfl := Option.some_inj.mp hw0
            exact h.watch_subs_registered wd w hwl c' (List.mem_filter.mp hc').1
          · exact h.watch_subs_registered wd0 w0 hw0 c' hc'
      · intro c' lw hcl'
        replace hcl' : (if c = c' then some (lwc.filter (fun x => decide (x ≠ wd)))
            else alookup s.clients c') = some lw := by
          rw [← alookup_ainsert]
          exact hcl'
        show c' < s.next_client_id
        split at hcl'
        · rename_i heq
          exact heq ▸ h.client_ids_lt c lwc hlwc
        · exact h.client_ids_lt c' lw hcl'
      · intro c' lw hcl'
        replace hcl' : (if c = c' then some (lwc.filter (fun x => decide (x ≠ wd)))
            else alookup s.clients c') = some lw := by
          rw [← alookup_ainsert]
          exact hcl'
        show ∀ wd0 ∈ lw, wd0 < s.next_wd
        split at hcl'
        · obtain rfl := Option.some_inj.mp hcl'
          intro wd0 hwd0
          exact h.client_wds_lt c lwc hlwc wd0 (List.mem_filter.mp hwd0).1
        · exact h.client_wds_lt c' lw hcl'
      · intro wd0 w0 hw0
        replace hw0 : (if wd = wd0 then some w' else alookup s.watches wd0) = some w0 := by
          rw [← alookup_ainsert]
          exact hw0
        show wd0 < s.next_wd
        split at hw0
        · rename_i heq
          exact heq ▸ h.watch_wds_lt wd w hwl
        · exact h.watch_wds_lt wd0 w0 hw0
      · intro c' lw wd0 w0 hcl' hw0
        replace hcl' : (if c = c' then some (lwc.filter (fun x => decide (x ≠ wd)))
            else alookup s.clients c') = some lw := by
          rw [← alookup_ainsert]
          exact hcl'
        replace hw0 : (if wd = wd0 then some w' else alookup s.watches wd0) = some w0 := by
          rw [← alookup_ainsert]
          exact hw0
        split at hcl'
        · rename_i heqc
          obtain rfl := Option.some_inj.mp hcl'
          subst heqc
          split at hw0
          · rename_i heqw
            obtain rfl := Option.some_inj.mp hw0
            subst heqw
            constructor
            · intro hm
              have := (List.mem_filter.mp hm).2
              simp at this
            · intro hm
              have := (List.mem_filter.mp hm).2
              simp at this
          · rename_i hneqw
            have hb := h.bicond c lwc wd0 w0 hlwc hw0
            constructor
            · intro hm
              refine List.mem_filter.mpr ⟨hb.mp hm, ?_⟩
              simpa using fun hh => hneqw hh.symm
            · intro hm
              exact hb.mpr (List.mem_filter.mp hm).1
        · rename_i hcnec
          split at hw0
          · rename_i heqw
            obtain rfl := Option.some_inj.mp hw0
            subst heqw
            have hb := h.bicond c' lw wd w hcl' hwl
            constructor
            · intro hm
              exact hb.mp (List.mem_filter.mp hm).1
            · intro hm
              refine List.mem_filter.mpr ⟨hb.mpr hm, ?_⟩
              simpa using fun hh => hcnec hh.symm
          · exact h.bicond c' lw wd0 w0 hcl' hw0

theorem regInv_applyOp (s : DaemonState) (op : RegOp)
    (h : RegInv s) (hv : validOp s op = true) : RegInv (applyOp s op) := by
  cases op with
  | register => exact regInv_register s h
  | addWatch c p m r => exact regInv_add s c p m r h (by simpa [validOp] using hv)
  | removeWatch c wd => exact regInv_remove s c wd h (by simpa [validOp] using hv)
  | unregister c => exact regInv_unregister s c h

theorem regInv_runOps : ∀ (ops : List RegOp) (s : DaemonState),
    RegInv s → validSeq s ops = true → RegInv (runOps s ops) := by
  intro ops
  induction ops with
  | nil => intro s h _; exact h
  | cons op rest ih =>
    intro s h hv
    rw [validSeq, Bool.and_eq_true] at hv
    exact ih (applyOp s op) (regInv_applyOp s op h hv.1) hv.2

/-- C1: after any valid sequence of registry operations from the empty
registry (clients registered before they add or remove watches, matching how
the server drives the registry), membership is symmetric — a client id is in
a watch's subscriber list iff that watch's descriptor is in the client's
list — and no live watch has an empty subscriber list. -/
theorem c1_registry_invariants (ops : List RegOp)
    (hv : validSeq DaemonState.new ops = true) :
    (∀ c lw wd w,
      alookup (runOps DaemonState.new ops).clients c = some lw →
      alookup (runOps DaemonState.new ops).watches wd = some w →
      (c ∈ w.clients ↔ wd ∈ lw)) ∧
    (∀ wd w, alookup (runOps DaemonState.new ops).watches wd = some w → w.clients ≠ []) := by
  have h := regInv_runOps ops DaemonState.new regInv_new hv
  exact ⟨fun c lw wd w hc hw => h.bicond c lw wd w hc hw,
         fun wd w hw => h.watch_nonempty wd w hw⟩

/-- Witness for C1 on a concrete six-operation sequence. -/
theorem c1_registry_invariants_witness :
    validSeq DaemonState.new
      [.register, .addWatch 1 pathTmpX IN_CREATE true, .register,
       .addWatch 2 pathTmpX IN_DELETE true, .removeWatch 1 1, .unregister 2] = true ∧
    ((∀ c lw wd w,
      alookup (runOps DaemonState.new
        [.register, .addWatch 1 pathTmpX IN_CREATE true, .register,
         .addWatch 2 pathTmpX IN_DELETE true, .removeWatch 1 1, .unregister 2]).clients c
          = some lw →
      alookup (runOps DaemonState.new
        [.register, .addWatch 1 pathTmpX IN_CREATE true, .register,
         .addWatch 2 pathTmpX IN_DELETE true, .removeWatch 1 1, .unregister 2]).watches wd
          = some w →
      (c ∈ w.clients ↔ wd ∈ lw)) ∧
     (∀ wd w, alookup (runOps DaemonState.new
        [.register, .addWatch 1 pathTmpX IN_CREATE true, .register,
         .addWatch 2 pathTmpX IN_DELETE true, .removeWatch 1 1, .unregister 2]).watches wd
          = some w → w.clients ≠ [])) :=
  ⟨by decide,
   c1_registry_invariants
     [.register, .addWatch 1 pathTmpX IN_CREATE true, .register,
      .addWatch 2 pathTmpX IN_DELETE true, .removeWatch 1 1, .unregister 2] (by decide)⟩
